import Mathlib

/-!
Verification development for the YiriMirai SDK core.

Each section embeds part of the Python source as Lean definitions
(`src/mirai/...`), and the theorems settle the specification claims
against those definitions.  Message chains, the mirai-code escaper,
the event bus dispatch loop, the priority registry, the adapters'
timeout logic and the bot facade's request verbs are modelled; the
models follow the source line by line, with Python `set`/`dict`
state made explicit.
-/

namespace Mirai

/-! ## Message components and chains (`src/mirai/models/message/`)

A message chain is an ordered list of message components.  For the
claims at hand only the component's type tag and its payload matter,
so a component is modelled as a type tag (`Plain`, `At`, `AtAll`,
...) together with its fields; equality of components follows the
pydantic field-by-field equality that the source relies on. -/

/-- A message component: `Plain(text)`, `At(target)`, `AtAll`, or an
`Image(id)`, mirroring the concrete subclasses of `MessageComponent`
that the claims exercise. -/
inductive Comp where
  | plain (text : String)
  | at (target : Int)
  | atAll
  | image (id : String)
deriving DecidableEq, Repr

/-- Component equality as the source computes it: `Plain.__eq__`
compares the `text` fields, the pydantic default compares type and
fields; components of different types are unequal. -/
def compEq : Comp → Comp → Bool
  | Comp.plain a, Comp.plain b => a == b
  | Comp.at a, Comp.at b => a == b
  | Comp.atAll, Comp.atAll => true
  | Comp.image a, Comp.image b => a == b
  | _, _ => false

/-- `MessageChain.__eq__`: `all(a == b for a, b in zip(self, other))`.
`zip` stops at the shorter operand, so the comparison runs only over
the common prefix. -/
def chainEq : List Comp → List Comp → Bool
  | a :: as_, b :: bs => compEq a b && chainEq as_ bs
  | _, _ => true

/-- `type(c) is x` for a component `c` and a component class `x`:
the tag of `c` equals the tag named by `x`. -/
def isType : Comp → Comp → Bool
  | Comp.plain _, Comp.plain _ => true
  | Comp.at _, Comp.at _ => true
  | Comp.atAll, Comp.atAll => true
  | Comp.image _, Comp.image _ => true
  | _, _ => false

/-- The generator `_exclude` inside `MessageChain.exclude`, for the
type-argument form: a component is skipped only when `count > 0` and
its type is `x`; `count` is decremented on each skip.  `count` is the
Python `int` argument, carried here as `Int` since the default is
`-1`. -/
def excludeAux (sameType : Comp → Bool) : Int → List Comp → List Comp
  | _, [] => []
  | count, c :: rest =>
    if count > 0 && sameType c then excludeAux sameType (count - 1) rest
    else c :: excludeAux sameType count rest

/-- `MessageChain.exclude(x, count=-1)` for a component type `x`:
runs the generator with the given `count`, default `-1`. -/
def exclude (x : Comp) (chain : List Comp) (count : Int := -1) : List Comp :=
  excludeAux (fun c => isType c x) count chain

/-! ## mirai-code escaping (`src/mirai/models/message/base.py`)

`serialize` is `re.sub(r'[\[\]:,\\]', '\\'+match, s).replace('\n',
'\\n').replace('\r', '\\r')`; `deserialize` is
`re.sub(r'\\([\[\]:,\\])', match, s.replace('\\n',
'\n').replace('\\r', '\r'))`.  Strings are modelled as `List Char`;
each pass below mirrors one `re.sub`/`str.replace`, with the scanning
semantics of the Python originals (leftmost match, non-overlapping,
advance by one on failure). -/

/-- The character class `[\[\]:,\\]` of the escaping regex. -/
def isEscaped (c : Char) : Bool :=
  c = '[' || c = ']' || c = ':' || c = ',' || c = '\\'

/-- `re.sub(r'[\[\]:,\\]', lambda m: '\\' + m.group(0), s)`: prefix
every character of the class with a backslash. -/
def escapePass : List Char → List Char
  | [] => []
  | c :: rest =>
    if isEscaped c then '\\' :: c :: escapePass rest
    else c :: escapePass rest

/-- `str.replace(target, repl)` where `target` is a single character
and `repl` a string: a per-character substitution. -/
def replaceChar (target : Char) (repl : List Char) : List Char → List Char
  | [] => []
  | c :: rest =>
    if c = target then repl ++ replaceChar target repl rest
    else c :: replaceChar target repl rest

/-- `str.replace('\\' + letter, repl)` where the pattern is a
backslash followed by `letter`: leftmost-first, non-overlapping; on a
failed match the scan advances one character. -/
def decodePair (letter repl : Char) : List Char → List Char
  | [] => []
  | ['\\'] => ['\\']
  | '\\' :: c :: rest =>
    if c = letter then repl :: decodePair letter repl rest
    else '\\' :: decodePair letter repl (c :: rest)
  | c :: rest => c :: decodePair letter repl rest

/-- `re.sub(r'\\([\[\]:,\\])', lambda m: m.group(1), s)`: an escaped
pair collapses to its second character; elsewhere the scan advances
one character. -/
def unescapePass : List Char → List Char
  | [] => []
  | ['\\'] => ['\\']
  | '\\' :: c :: rest =>
    if isEscaped c then c :: unescapePass rest
    else '\\' :: unescapePass (c :: rest)
  | c :: rest => c :: unescapePass rest

/-- `serialize(s)`: escape the five class characters, then encode the
newline, then the carriage return. -/
def serialize (s : List Char) : List Char :=
  replaceChar '\r' ['\\', 'r']
    (replaceChar '\n' ['\\', 'n'] (escapePass s))

/-- `deserialize(s)`: decode `\n`, then `\r`, then collapse the
escaped pairs. -/
def deserialize (s : List Char) : List Char :=
  unescapePass (decodePair 'r' '\r' (decodePair 'n' '\n' s))

/-- `serialize` on `String`. -/
def serializeStr (s : String) : String := ⟨serialize s.data⟩

/-- `deserialize` on `String`. -/
def deserializeStr (s : String) : String := ⟨deserialize s.data⟩

/-- Per-character form of `serialize`: what one input character
contributes to the escaped output. -/
def enc (c : Char) : List Char :=
  if isEscaped c then ['\\', c]
  else if c = '\n' then ['\\', 'n']
  else if c = '\r' then ['\\', 'r']
  else [c]

/-- The string after `serialize` and the `\n`-decoding pass of
`deserialize`: newline encodings are back to newlines. -/
def encA (c : Char) : List Char :=
  if isEscaped c then ['\\', c]
  else if c = '\n' then ['\n']
  else if c = '\r' then ['\\', 'r']
  else [c]

/-- The string after both pair-decoding passes of `deserialize`:
only the five-class escapes remain. -/
def encB (c : Char) : List Char :=
  if isEscaped c then ['\\', c] else [c]

/-- No backslash of `s` is immediately followed by the letter `n` or
`r`.  On such strings the escape/unescape passes cannot interfere. -/
def goodNR : List Char → Bool
  | [] => true
  | ['\\'] => true
  | '\\' :: c :: rest => (!(c = 'n' || c = 'r')) && goodNR (c :: rest)
  | _ :: rest => goodNR rest

/-! ## Event bus dispatch (`src/mirai/bus.py`, `src/mirai/utils.py`)

`EventBus.emit` walks the event chain; for each event name it walks
the priority buckets in ascending order and runs the bucket's
handlers with `asyncio.gather(call(f) for f in listeners)`, where
`call(f)` awaits `async_with_exception(f(*args, **kwargs))`.

The model keeps what decides the claims:

* `f(*args, **kwargs)` is evaluated *before*
  `async_with_exception`'s `try` block.  A synchronous handler that
  raises therefore raises straight out of `call`; an asynchronous
  handler only builds its coroutine there, and the exception is later
  raised inside `async_with_exception`'s `try`, caught, and passed to
  the error sink (`print_exception`).
* `asyncio.gather` starts every handler of the bucket as a task on
  the single-threaded loop before `emit` resumes, so every handler of
  the bucket runs; the exception `await gather` re-raises is the one
  of the earliest failing task.  Buckets are Python `set`s iterated
  in some order; the model fixes that order as a list.
* `emit` catches `SkipExecution` per bucket (continue with the next
  bucket), `StopExecution` per event name (continue with the next
  chain element), and `StopPropagation` at the top (return).  Any
  other exception escapes `emit` to its caller. -/

/-- Whether a handler is a plain function or a coroutine function. -/
inductive HKind where
  | sync
  | async
deriving DecidableEq, Repr

/-- What a handler raises, if anything: one of the three control-flow
signals from `mirai.exceptions`, or an ordinary exception carrying a
tag. -/
inductive Exc where
  | skipExecution
  | stopExecution
  | stopPropagation
  | other (tag : Nat)
deriving DecidableEq, Repr

/-- A subscribed handler: an identifier, its kind, and what it raises
when invoked (`none` = returns normally). -/
structure Handler where
  id : Nat
  kind : HKind
  beh : Option Exc
deriving DecidableEq, Repr

/-- A priority bucket: the handlers registered at one priority, in
execution order. -/
abbrev Bucket := List Handler

/-- The buckets of one event name, ascending priority. -/
abbrev EventBuckets := List Bucket

/-- An event chain: buckets of the event itself, then of each
ancestor, in chain order. -/
abbrev Chain := List EventBuckets

/-- A handler whose exception reaches `asyncio.gather`: a synchronous
handler that raises (an async handler's exception is caught inside
`async_with_exception` instead). -/
def Handler.syncRaises (h : Handler) : Bool :=
  h.kind = HKind.sync && h.beh.isSome

/-- A handler whose exception is caught by `async_with_exception` and
reported to the error sink: an async handler that raises. -/
def Handler.sinkReported (h : Handler) : Bool :=
  h.kind = HKind.async && h.beh.isSome

/-- The exception `await asyncio.gather(...)` re-raises for a bucket:
that of the earliest synchronous raiser, if any. -/
def syncSignal (b : Bucket) : Option Exc :=
  match b.find? Handler.syncRaises with
  | some h => h.beh
  | none => none

/-- Control state after one bucket of `emit`'s inner loop. -/
inductive Ctl where
  | next
  | stopAll
  | err (tag : Nat)
deriving DecidableEq, Repr

/-- Result of an `emit`: the handlers that were invoked, the handlers
whose exception went to the error sink, and the exception `emit`
itself re-raised to its caller, if any. -/
structure EmitResult where
  invoked : List Handler
  reported : List Handler
  raised : Option Nat
deriving DecidableEq, Repr

/-- The bucket loop for one event name.  Every handler of a reached
bucket is invoked (gather starts them all); the bucket's sync signal
then decides: nothing or `SkipExecution` continue with the next
bucket, `StopExecution` leaves the bucket loop (`continue` with the
next chain element), `StopPropagation` aborts the chain, anything
else escapes `emit`. -/
def runBuckets : EventBuckets → List Handler × List Handler × Ctl
  | [] => ([], [], Ctl.next)
  | b :: bs =>
    let rep := b.filter Handler.sinkReported
    match syncSignal b with
    | none =>
      let (i, r, c) := runBuckets bs
      (b ++ i, rep ++ r, c)
    | some Exc.skipExecution =>
      let (i, r, c) := runBuckets bs
      (b ++ i, rep ++ r, c)
    | some Exc.stopExecution => (b, rep, Ctl.next)
    | some Exc.stopPropagation => (b, rep, Ctl.stopAll)
    | some (Exc.other t) => (b, rep, Ctl.err t)

/-- `EventBus.emit` over a whole event chain.  `StopPropagation` is
caught at the top (`emit` returns normally); an ordinary exception
escapes to the caller. -/
def runChain : Chain → EmitResult
  | [] => ⟨[], [], none⟩
  | ev :: evs =>
    match runBuckets ev with
    | (i, r, Ctl.next) =>
      let res := runChain evs
      ⟨i ++ res.invoked, r ++ res.reported, res.raised⟩
    | (i, r, Ctl.stopAll) => ⟨i, r, none⟩
    | (i, r, Ctl.err t) => ⟨i, r, some t⟩

/-- All handlers registered in a chain, in dispatch order. -/
def chainHandlers (c : Chain) : List Handler :=
  (c.map (fun ev => ev.flatten)).flatten

/-- A bucket that lets the loop continue: its sync signal is nothing
or `SkipExecution`. -/
def bucketPasses (b : Bucket) : Bool :=
  syncSignal b = none || syncSignal b = some Exc.skipExecution

/-- An event name whose bucket loop ends in `Ctl.next`, letting the
chain walk continue. -/
def eventPasses (ev : EventBuckets) : Bool :=
  (runBuckets ev).2.2 = Ctl.next

/-! ## The priority registry (`src/mirai/utils.py`, `PriorityDict`)

`PriorityDict` keeps `_data: Dict[int, Set[T]]` (a `defaultdict` of
sets, insertion-ordered keys) and `_priorities: Dict[T, int]`.
Iteration yields the sets sorted by priority.  Values are modelled by
`Nat` identifiers; a Python `set` becomes a duplicate-free list and a
`dict` an association list keyed by first occurrence. -/

/-- The `PriorityDict` state. -/
structure PriorityDict where
  data : List (Int × List Nat)
  priorities : List (Nat × Int)
deriving DecidableEq, Repr

/-- The empty `PriorityDict`. -/
def PriorityDict.empty : PriorityDict := ⟨[], []⟩

/-- `dict` lookup on an association list. -/
def alistGet (k : Nat) : List (Nat × Int) → Option Int
  | [] => none
  | (k', v) :: rest => if k' = k then some v else alistGet k rest

/-- `dict[key] = value`: overwrite in place or append. -/
def alistSet (k : Nat) (v : Int) : List (Nat × Int) → List (Nat × Int)
  | [] => [(k, v)]
  | (k', v') :: rest =>
    if k' = k then (k, v) :: rest else (k', v') :: alistSet k v rest

/-- `del dict[key]`. -/
def alistDel (k : Nat) : List (Nat × Int) → List (Nat × Int)
  | [] => []
  | (k', v') :: rest =>
    if k' = k then rest else (k', v') :: alistDel k rest

/-- `set.add`: no effect when the element is present. -/
def setAdd (v : Nat) (s : List Nat) : List Nat :=
  if v ∈ s then s else s ++ [v]

/-- `defaultdict(set)` insertion: add `v` to the set at key `p`,
creating the key at the end when missing. -/
def dataAdd (p : Int) (v : Nat) : List (Int × List Nat) → List (Int × List Nat)
  | [] => [(p, [v])]
  | (p', s) :: rest =>
    if p' = p then (p, setAdd v s) :: rest else (p', s) :: dataAdd p v rest

/-- `set.remove` on the set stored at key `p`. -/
def dataRemove (p : Int) (v : Nat) : List (Int × List Nat) → List (Int × List Nat)
  | [] => []
  | (p', s) :: rest =>
    if p' = p then (p, s.filter (· ≠ v)) :: rest
    else (p', s) :: dataRemove p v rest

/-- `PriorityDict.add(priority, value)`: `self._data[priority].add(value)`
then `self._priorities[value] = priority`.  Nothing removes the value
from a bucket it already occupies. -/
def PriorityDict.add (pd : PriorityDict) (priority : Int) (value : Nat) :
    PriorityDict :=
  ⟨dataAdd priority value pd.data, alistSet value priority pd.priorities⟩

/-- `PriorityDict.remove(value)`: look the value's priority up in
`_priorities` (`KeyError` when absent, modelled as `Except.error`),
remove it from that one bucket, and delete the `_priorities` entry. -/
def PriorityDict.remove (pd : PriorityDict) (value : Nat) :
    Except Unit PriorityDict :=
  match alistGet value pd.priorities with
  | none => Except.error ()
  | some priority =>
    Except.ok ⟨dataRemove priority value pd.data, alistDel value pd.priorities⟩

/-- Insertion sort by priority key, as `sorted(self._data.items())`
orders the buckets. -/
def insertSorted (x : Int × List Nat) : List (Int × List Nat) → List (Int × List Nat)
  | [] => [x]
  | y :: rest =>
    if x.1 ≤ y.1 then x :: y :: rest else y :: insertSorted x rest

/-- `sorted` on the bucket association list. -/
def sortBuckets : List (Int × List Nat) → List (Int × List Nat)
  | [] => []
  | x :: rest => insertSorted x (sortBuckets rest)

/-- `PriorityDict.__iter__`: the sets in ascending priority order.
`emit` walks this list and invokes every member of every set. -/
def PriorityDict.iterBuckets (pd : PriorityDict) : List (List Nat) :=
  (sortBuckets pd.data).map Prod.snd

/-- How many times `emit` would invoke a value: its number of
occurrences over all buckets. -/
def PriorityDict.invocations (pd : PriorityDict) (v : Nat) : Nat :=
  pd.iterBuckets.flatten.count v

/-! ## WebSocket correlation map (`src/mirai/adapters/websocket.py`)

`_recv_dict: Dict[str, deque] = defaultdict(deque)` maps a sync-id to
the queue of responses received for it.  `_recv(sync_id, timeout)`
polls `self._recv_dict[sync_id]` up to `timeout` times — each poll a
`defaultdict` access that *creates* an empty deque when the key is
missing — and raises `TimeoutError` when no data ever shows up.
Sync-ids are modelled as `Nat` (the code stringifies the counter);
response payloads as `Nat` tags. -/

/-- The correlation map: sync-id to queued response data, keys in
insertion order. -/
abbrev RecvDict := List (Nat × List Nat)

/-- `defaultdict.__getitem__`: reading a missing key inserts an empty
deque. -/
def recvTouch (sid : Nat) : RecvDict → RecvDict
  | [] => [(sid, [])]
  | (k, q) :: rest =>
    if k = sid then (k, q) :: rest else (k, q) :: recvTouch sid rest

/-- Queue lookup after the touch. -/
def recvQueue (sid : Nat) : RecvDict → List Nat
  | [] => []
  | (k, q) :: rest => if k = sid then q else recvQueue sid rest

/-- `deque.popleft` on the queue of `sid`. -/
def recvPop (sid : Nat) : RecvDict → RecvDict
  | [] => []
  | (k, q) :: rest =>
    if k = sid then (k, q.drop 1) :: rest else (k, q) :: recvPop sid rest

/-- Whether the map has an entry for `sid` (`sid in adapter._recv_dict`). -/
def recvContains (sid : Nat) : RecvDict → Bool
  | [] => false
  | (k, _) :: rest => k = sid || recvContains sid rest

/-- One run of `_recv`'s polling loop with no receiver delivering
data meanwhile: `fuel` is `range(timeout)`.  Returns the map as it
stands when a datum is popped (`some data`) or when `TimeoutError`
is raised (`none`). -/
def recvLoop (sid : Nat) : Nat → RecvDict → RecvDict × Option Nat
  | 0, m => (m, none)
  | fuel + 1, m =>
    let m1 := recvTouch sid m
    match recvQueue sid m1 with
    | data :: _ => (recvPop sid m1, some data)
    | [] => recvLoop sid fuel m1

/-! ## HTTP adapter timeouts (`src/mirai/adapters/http.py`)

`_get` and `_post` pass `timeout=10.` to the `httpx` client;
`_post_multipart` passes `timeout=30.`.  All three catch
`httpx.TimeoutException` and return `None`; otherwise the response
goes through `_parse_response`, which raises `ApiError` on a
non-zero `code`. -/

/-- The `timeout=` argument of `client.get` in `HTTPAdapter._get`,
in seconds. -/
def getTimeoutSeconds : Nat := 10

/-- The `timeout=` argument of `client.post` in `HTTPAdapter._post`,
in seconds. -/
def postTimeoutSeconds : Nat := 10

/-- The `timeout=` argument of `client.post` in
`HTTPAdapter._post_multipart`, in seconds. -/
def multipartTimeoutSeconds : Nat := 30

/-- What the underlying `httpx` request produces: a response with its
`{code, msg, data}` body, or a `TimeoutException`. -/
inductive NetResult where
  | ok (code : Nat) (payload : Nat)
  | timeout
deriving DecidableEq, Repr

/-- A domain error raised by `_parse_response` (`ApiError(code)`). -/
structure ApiErr where
  code : Nat
deriving DecidableEq, Repr

/-- The body of `HTTPAdapter._get` / `_post` / `_post_multipart`
after the request completes: `TimeoutException` is caught and `None`
returned; otherwise `_parse_response` checks `code` and raises
`ApiError` on a non-zero value, else hands the parsed result back. -/
def httpRequestResult (net : NetResult) : Except ApiErr (Option Nat) :=
  match net with
  | NetResult.timeout => Except.ok none
  | NetResult.ok code payload =>
    if code ≠ 0 then Except.error ⟨code⟩ else Except.ok (some payload)

/-! ## WebSocket sync-id assignment (`src/mirai/adapters/websocket.py`)

`call_api` executes `self._local_sync_id += 1; sync_id =
str(self._local_sync_id)`.  The model tracks the counter as `Nat`
(its initial value is `random.randint(1, 1024) * 1024`); the `str`
conversion is injective, so distinctness of the counter values is
distinctness of the wire sync-ids. -/

/-- The sync-id assigned by the `i`-th `call_api` (0-based) on an
adapter whose counter starts at `start`. -/
def assignedSyncId (start i : Nat) : Nat := start + i + 1

/-- The sync-ids assigned over a run of `n` calls. -/
def assignedSyncIds (start n : Nat) : List Nat :=
  (List.range n).map (assignedSyncId start)

/-! ## Request-approval verbs (`src/mirai/bot.py`,
`src/mirai/models/entities.py`)

`RespOperate` is a `Flag` with `ALLOW = 1`, `DECLINE = 2`,
`IGNORE = 3`, `BAN = 4`; composition on flags is bitwise or.  The
three verbs pass an operate value and the message to
`process_request`, which builds the response command through the
shared `RespEvent.from_event`. -/

/-- `RespOperate.ALLOW`. -/
def RespOperateALLOW : Nat := 1

/-- `RespOperate.DECLINE`. -/
def RespOperateDECLINE : Nat := 2

/-- `RespOperate.IGNORE`. -/
def RespOperateIGNORE : Nat := 3

/-- `RespOperate.BAN`. -/
def RespOperateBAN : Nat := 4

/-- The operate flag `Mirai.allow` passes to `process_request`. -/
def allowOperate : Nat := RespOperateALLOW

/-- The operate flag `Mirai.decline` passes to `process_request`:
`RespOperate.DECLINE | RespOperate.BAN if ban else
RespOperate.DECLINE`, a conditional expression whose condition binds
below `|`. -/
def declineOperate (ban : Bool) : Nat :=
  if ban then RespOperateDECLINE ||| RespOperateBAN else RespOperateDECLINE

/-- The operate flag `Mirai.ignore` passes to `process_request`:
`RespOperate.IGNORE | RespOperate.BAN if ban else
RespOperate.DECLINE` — the conditional again binds below `|`, so the
`else` arm is `RespOperate.DECLINE`. -/
def ignoreOperate (ban : Bool) : Nat :=
  if ban then RespOperateIGNORE ||| RespOperateBAN else RespOperateDECLINE

/-- A request-approval event, as `RespEvent.from_event` reads it. -/
structure RequestEvent where
  eventId : Int
  fromId : Int
  groupId : Int
deriving DecidableEq, Repr

/-- The response command built by `RespEvent.from_event(event,
operate, message)`. -/
structure RespCommand where
  eventId : Int
  fromId : Int
  groupId : Int
  operate : Nat
  message : String
deriving DecidableEq, Repr

/-- `RespEvent.from_event`: copy the event's identifiers across and
attach the operate flag and the message. -/
def fromEvent (e : RequestEvent) (operate : Nat) (message : String) :
    RespCommand :=
  ⟨e.eventId, e.fromId, e.groupId, operate, message⟩

/-- `Mirai.process_request(event, operate, message)`: the command it
issues, built through `from_event`. -/
def processRequest (e : RequestEvent) (operate : Nat) (message : String) :
    RespCommand :=
  fromEvent e operate message

/-- The command issued by `Mirai.allow(event, message)`. -/
def botAllow (e : RequestEvent) (message : String) : RespCommand :=
  processRequest e allowOperate message

/-- The command issued by `Mirai.decline(event, message, ban)`. -/
def botDecline (e : RequestEvent) (message : String) (ban : Bool) : RespCommand :=
  processRequest e (declineOperate ban) message

/-- The command issued by `Mirai.ignore(event, message, ban)`. -/
def botIgnore (e : RequestEvent) (message : String) (ban : Bool) : RespCommand :=
  processRequest e (ignoreOperate ban) message

/-! ## Helper lemmas -/

/-- Component equality is reflexive. -/
theorem compEq_refl (c : Comp) : compEq c c = true := by
  cases c <;> simp [compEq]

/-- `recvTouch` does not change the queue stored for the touched id. -/
theorem recvQueue_touch (sid : Nat) (m : RecvDict) :
    recvQueue sid (recvTouch sid m) = recvQueue sid m := by
  induction m with
  | nil => simp [recvTouch, recvQueue]
  | cons kv rest ih =>
    obtain ⟨k, q⟩ := kv
    by_cases h : k = sid <;> simp [recvTouch, recvQueue, h, ih]

/-- After a `defaultdict` access the key is present. -/
theorem recvContains_touch (sid : Nat) (m : RecvDict) :
    recvContains sid (recvTouch sid m) = true := by
  induction m with
  | nil => simp [recvTouch, recvContains]
  | cons kv rest ih =>
    obtain ⟨k, q⟩ := kv
    by_cases h : k = sid <;> simp [recvTouch, recvContains, h, ih]

/-! ## Claims -/

/-- C10: `MessageChain.__eq__` compares component-wise only over the
length of the shorter chain, so a chain equals every chain obtained
from it by appending further components — `==` does not distinguish
a chain from its proper extensions. -/
theorem chainEq_ignores_extra_components (a ext : List Comp) :
    chainEq a (a ++ ext) = true := by
  induction a with
  | nil => cases ext <;> rfl
  | cons c rest ih => simp [chainEq, compEq_refl, ih]

/-- C5: evaluating `MessageChain.exclude` at its default
`count = -1` on the test chain `['str1', 'str2', At(12345678)]`
removes nothing: the `count > 0` guard is never satisfied, so the
`At` component survives, contradicting the documented "default:
remove all". -/
theorem exclude_default_count_removes_nothing :
    exclude (Comp.at 12345678)
        [Comp.plain "str1", Comp.plain "str2", Comp.at 12345678]
      = [Comp.plain "str1", Comp.plain "str2", Comp.at 12345678] ∧
    Comp.at 12345678 ∈
      exclude (Comp.at 12345678)
        [Comp.plain "str1", Comp.plain "str2", Comp.at 12345678] := by
  constructor <;> decide

/-- C3: after `subscribe(e, f, 0)` then `subscribe(e, f, 1)` the
handler sits in both priority buckets — iteration yields it twice, so
one `emit` invokes it twice — and after `remove(f)` it still sits in
the priority-0 bucket: `add` never clears the old registration. -/
theorem reprioritize_keeps_both_buckets :
    ((PriorityDict.empty.add 0 7).add 1 7).invocations 7 = 2 ∧
    (match ((PriorityDict.empty.add 0 7).add 1 7).remove 7 with
      | Except.ok pd' => pd'.invocations 7
      | Except.error _ => 0) = 1 := by
  constructor <;> decide

/-- C7 (counterexample): the `timeout=` argument of the body-request
methods `_get` and `_post` is 10 seconds, not the claimed 60. -/
theorem http_body_timeout_not_sixty :
    getTimeoutSeconds ≠ 60 ∧ postTimeoutSeconds ≠ 60 := by
  constructor <;> decide

/-- C7 (amended): body requests (`_get`, `_post`) carry a 10-second
per-request timeout and multipart uploads a 30-second one, and a
`TimeoutException` from the underlying request makes the call return
a null result instead of raising. -/
theorem http_timeouts_and_null_on_timeout :
    getTimeoutSeconds = 10 ∧ postTimeoutSeconds = 10 ∧
    multipartTimeoutSeconds = 30 ∧
    httpRequestResult NetResult.timeout = Except.ok none := by
  refine ⟨rfl, rfl, rfl, rfl⟩

/-- C8: `Mirai.ignore(event, message, ban=False)` issues the same
command as `Mirai.decline(event, message, ban=False)`: the
conditional expression in `ignore` binds below `|`, so its `else`
arm is `RespOperate.DECLINE`, and the operate flag sent is DECLINE
(2), not the documented IGNORE (3). -/
theorem ignore_without_ban_sends_decline :
    botIgnore ⟨1, 2, 3⟩ "" false = botDecline ⟨1, 2, 3⟩ "" false ∧
    (botIgnore ⟨1, 2, 3⟩ "" false).operate = RespOperateDECLINE ∧
    RespOperateDECLINE ≠ RespOperateIGNORE ∧
    ignoreOperate true = (RespOperateIGNORE ||| RespOperateBAN) := by
  refine ⟨rfl, rfl, by decide, rfl⟩

/-- C9: over a run of `n` WebSocket `call_api` calls the assigned
sync-ids are exactly `n` many, strictly increasing in call order,
and pairwise distinct — an id is never reassigned at all, so in
particular never while an earlier command still awaits its
response. -/
theorem sync_ids_distinct_and_increasing (start n : Nat) :
    (assignedSyncIds start n).length = n ∧
    List.Pairwise (· < ·) (assignedSyncIds start n) ∧
    (assignedSyncIds start n).Nodup := by
  have hp : List.Pairwise (· < ·) (assignedSyncIds start n) := by
    unfold assignedSyncIds
    rw [List.pairwise_map]
    exact (List.pairwise_lt_range n).imp (fun h => by
      simp only [assignedSyncId]; omega)
  exact ⟨by simp [assignedSyncIds], hp, hp.imp Nat.ne_of_lt⟩

set_option maxRecDepth 4000 in
/-- C6 (counterexample): a `_recv` that exhausts its default 600
polling rounds with no response leaves an entry keyed by the
command's sync-id in `_recv_dict` — the `defaultdict` access inserts
it and nothing removes it on timeout. -/
theorem recv_timeout_leaves_entry :
    (recvLoop 1025 600 []).2 = none ∧
    recvContains 1025 (recvLoop 1025 600 []).1 = true := by
  constructor <;> decide

/-- C6 (amended): when the response for a sync-id never arrives, the
timed-out `_recv` leaves the correlation map with an entry for that
sync-id whose queue is empty — the key is inserted by the
`defaultdict` access and survives the timeout; only queued data is
absent. -/
theorem recv_timeout_entry_remains_empty (m : RecvDict) (sid fuel : Nat)
    (hq : recvQueue sid m = []) (hf : 0 < fuel) :
    (recvLoop sid fuel m).2 = none ∧
    recvContains sid (recvLoop sid fuel m).1 = true ∧
    recvQueue sid (recvLoop sid fuel m).1 = [] := by
  induction fuel generalizing m with
  | zero => omega
  | succ fuel ih =>
    have hq1 : recvQueue sid (recvTouch sid m) = [] := by
      rw [recvQueue_touch]; exact hq
    cases fuel with
    | zero =>
      simp [recvLoop, hq1, recvContains_touch]
    | succ fuel' =>
      have h := ih (recvTouch sid m) hq1 (Nat.succ_pos _)
      simpa [recvLoop, hq1] using h

/-- Witness for C6 (amended): the empty map and three polling rounds. -/
theorem recv_timeout_entry_remains_empty_witness :
    recvQueue 7 ([] : RecvDict) = [] ∧ 0 < 3 ∧
    (recvLoop 7 3 []).2 = none ∧
    recvContains 7 (recvLoop 7 3 []).1 = true := by
  refine ⟨by decide, by decide, ?_, ?_⟩
  · exact (recv_timeout_entry_remains_empty [] 7 3 (by decide) (by decide)).1
  · exact (recv_timeout_entry_remains_empty [] 7 3 (by decide) (by decide)).2.1

/-- C1 (counterexample): an async handler raising `StopPropagation`
in the first priority bucket does not stop anything: its exception is
caught inside `async_with_exception` (the handler coroutine is built
before the `try` and awaited inside it) and reported to the error
sink, and the handler in the next priority bucket is still invoked
during the same emit. -/
theorem async_stop_propagation_ignored :
    runChain [[[⟨0, HKind.async, some Exc.stopPropagation⟩],
               [⟨1, HKind.sync, none⟩]]]
      = ⟨[⟨0, HKind.async, some Exc.stopPropagation⟩,
          ⟨1, HKind.sync, none⟩],
         [⟨0, HKind.async, some Exc.stopPropagation⟩], none⟩ ∧
    (⟨1, HKind.sync, none⟩ : Handler) ∈
      (runChain [[[⟨0, HKind.async, some Exc.stopPropagation⟩],
                  [⟨1, HKind.sync, none⟩]]]).invoked := by
  constructor <;> decide

/-- C2 (counterexample): a synchronous handler raising an ordinary
exception makes `emit` itself re-raise it: the handler body runs
before `async_with_exception`'s `try`, the exception reaches
`asyncio.gather`, matches none of the three control-signal handlers
in `emit`, and escapes to the caller — nothing is reported to the
error sink and the handler in the next priority bucket is never
invoked. -/
theorem sync_exception_escapes_emit :
    runChain [[[⟨0, HKind.sync, some (Exc.other 5)⟩],
               [⟨1, HKind.sync, none⟩]]]
      = ⟨[⟨0, HKind.sync, some (Exc.other 5)⟩], [], some 5⟩ ∧
    (⟨1, HKind.sync, none⟩ : Handler) ∉
      (runChain [[[⟨0, HKind.sync, some (Exc.other 5)⟩],
                  [⟨1, HKind.sync, none⟩]]]).invoked := by
  constructor <;> decide


theorem runBuckets_cons_pass (b : Bucket) (bs : EventBuckets)
    (h : bucketPasses b = true) :
    runBuckets (b :: bs) =
      (b ++ (runBuckets bs).1,
       b.filter Handler.sinkReported ++ (runBuckets bs).2.1,
       (runBuckets bs).2.2) := by
  rcases hbs : runBuckets bs with ⟨i, r, c⟩
  simp only [bucketPasses, Bool.or_eq_true, decide_eq_true_eq] at h
  rcases h with h | h <;> simp [runBuckets, h, hbs]

theorem runBuckets_append_pass (bpre rest : EventBuckets)
    (h : ∀ b ∈ bpre, bucketPasses b = true) :
    runBuckets (bpre ++ rest) =
      (bpre.flatten ++ (runBuckets rest).1,
       bpre.flatten.filter Handler.sinkReported ++ (runBuckets rest).2.1,
       (runBuckets rest).2.2) := by
  induction bpre with
  | nil => simp
  | cons b bs ih =>
    rw [List.cons_append, runBuckets_cons_pass b _ (h b (List.mem_cons_self b bs)),
      ih (fun x hx => h x (List.mem_cons_of_mem b hx))]
    simp [List.filter_append]

theorem runBuckets_stopProp (b : Bucket) (bpost : EventBuckets)
    (h : syncSignal b = some Exc.stopPropagation) :
    runBuckets (b :: bpost) = (b, b.filter Handler.sinkReported, Ctl.stopAll) := by
  simp [runBuckets, h]

theorem runBuckets_skip (b : Bucket) (bpost : EventBuckets)
    (h : syncSignal b = some Exc.skipExecution) :
    runBuckets (b :: bpost) =
      (b ++ (runBuckets bpost).1,
       b.filter Handler.sinkReported ++ (runBuckets bpost).2.1,
       (runBuckets bpost).2.2) := by
  rcases hbs : runBuckets bpost with ⟨i, r, c⟩
  simp [runBuckets, h, hbs]

theorem runBuckets_err (b : Bucket) (bpost : EventBuckets) (t : Nat)
    (h : syncSignal b = some (Exc.other t)) :
    runBuckets (b :: bpost) = (b, b.filter Handler.sinkReported, Ctl.err t) := by
  simp [runBuckets, h]

theorem runChain_append_pass (pre rest : Chain)
    (h : ∀ ev ∈ pre, eventPasses ev = true) :
    runChain (pre ++ rest) =
      ⟨(runChain pre).invoked ++ (runChain rest).invoked,
       (runChain pre).reported ++ (runChain rest).reported,
       (runChain rest).raised⟩ := by
  induction pre with
  | nil => simp [runChain]
  | cons ev evs ih =>
    have hev : (runBuckets ev).2.2 = Ctl.next := by
      have := h ev (List.mem_cons_self ev evs)
      simpa [eventPasses] using this
    rcases hrb : runBuckets ev with ⟨i, r, c⟩
    rw [hrb] at hev
    simp only at hev
    subst hev
    rw [List.cons_append]
    simp [runChain, hrb, ih (fun x hx => h x (List.mem_cons_of_mem ev hx))]

/-- C1 (amended): control-flow signals steer dispatch only when the
raising handler is synchronous.  When the bucket's first synchronous
raiser raises `StopPropagation`, `emit` invokes no handler of any
later bucket of the event or of any ancestor type and returns
normally; when it raises `SkipExecution`, all handlers of the bucket
were still started and dispatch proceeds with the next bucket; and a
bucket of only async handlers never produces a signal — an async
handler's control exception is caught by `async_with_exception` and
reported to the error sink instead. -/
theorem control_signals_sync_only (pre post : Chain)
    (bpre bpost : EventBuckets) (b : Bucket)
    (hpre : ∀ ev ∈ pre, eventPasses ev = true)
    (hbpre : ∀ b' ∈ bpre, bucketPasses b' = true) :
    (syncSignal b = some Exc.stopPropagation →
      runChain (pre ++ (bpre ++ b :: bpost) :: post)
        = ⟨(runChain pre).invoked ++ bpre.flatten ++ b,
           (runChain pre).reported
             ++ (bpre.flatten ++ b).filter Handler.sinkReported,
           none⟩) ∧
    (syncSignal b = some Exc.skipExecution →
      (runChain (pre ++ (bpre ++ b :: bpost) :: post)).invoked
        = (runChain pre).invoked ++ bpre.flatten ++ b
            ++ (runChain (bpost :: post)).invoked) ∧
    ((∀ h ∈ b, h.kind = HKind.async) → syncSignal b = none) := by
  refine ⟨?_, ?_, ?_⟩
  · intro hsp
    rw [runChain_append_pass pre _ hpre]
    have hev : runBuckets (bpre ++ b :: bpost)
        = (bpre.flatten ++ b, (bpre.flatten ++ b).filter Handler.sinkReported,
           Ctl.stopAll) := by
      rw [runBuckets_append_pass bpre _ hbpre, runBuckets_stopProp b bpost hsp,
        List.filter_append]
    simp [runChain, hev, List.append_assoc]
  · intro hskip
    rw [runChain_append_pass pre _ hpre]
    have hev : runBuckets (bpre ++ b :: bpost)
        = (bpre.flatten ++ (b ++ (runBuckets bpost).1),
           bpre.flatten.filter Handler.sinkReported
             ++ (b.filter Handler.sinkReported ++ (runBuckets bpost).2.1),
           (runBuckets bpost).2.2) := by
      rw [runBuckets_append_pass bpre _ hbpre, runBuckets_skip b bpost hskip]
    rcases hc : runBuckets bpost with ⟨i3, r3, c3⟩
    rw [hc] at hev
    cases c3 <;> simp [runChain, hev, hc, List.append_assoc]
  · intro hall
    have : b.find? Handler.syncRaises = none := by
      rw [List.find?_eq_none]
      intro x hx
      simp [Handler.syncRaises, hall x hx]
    simp [syncSignal, this]

/-- C2 (amended): exception containment depends on the handler's
kind.  When no synchronous handler raises, `emit` invokes every
handler of the chain, reports exactly the raising async handlers to
the error sink, and raises nothing to its caller; but an ordinary
exception from a synchronous handler escapes `emit` itself, and no
handler of a later bucket or chain element runs in that emit. -/
theorem exception_handling_split_by_kind :
    (∀ chain : Chain, (∀ ev ∈ chain, ∀ b ∈ ev, syncSignal b = none) →
      runChain chain = ⟨chainHandlers chain,
        (chainHandlers chain).filter Handler.sinkReported, none⟩) ∧
    (∀ (pre post : Chain) (bpre bpost : EventBuckets) (b : Bucket) (t : Nat),
      (∀ ev ∈ pre, eventPasses ev = true) →
      (∀ b' ∈ bpre, bucketPasses b' = true) →
      syncSignal b = some (Exc.other t) →
      runChain (pre ++ (bpre ++ b :: bpost) :: post)
        = ⟨(runChain pre).invoked ++ bpre.flatten ++ b,
           (runChain pre).reported
             ++ (bpre.flatten ++ b).filter Handler.sinkReported,
           some t⟩) := by
  constructor
  · intro chain hnone
    induction chain with
    | nil => rfl
    | cons ev evs ih =>
      have hev : runBuckets ev
          = (ev.flatten, ev.flatten.filter Handler.sinkReported, Ctl.next) := by
        have hb : ∀ b ∈ ev, bucketPasses b = true := by
          intro b hb
          simp [bucketPasses, hnone ev (List.mem_cons_self ev evs) b hb]
        have h0 := runBuckets_append_pass ev [] hb
        simpa [runBuckets] using h0
      rw [runChain]
      simp [hev, ih (fun e he b hb => hnone e (List.mem_cons_of_mem ev he) b hb),
        chainHandlers, List.filter_append]
  · intro pre post bpre bpost b t hpre hbpre herr
    rw [runChain_append_pass pre _ hpre]
    have hev : runBuckets (bpre ++ b :: bpost)
        = (bpre.flatten ++ b, (bpre.flatten ++ b).filter Handler.sinkReported,
           Ctl.err t) := by
      rw [runBuckets_append_pass bpre _ hbpre, runBuckets_err b bpost t herr,
        List.filter_append]
    simp [runChain, hev, List.append_assoc]

/-- Witness for C1 (amended): a synchronous `StopPropagation` raiser
followed by a later bucket that stays uninvoked. -/
theorem control_signals_sync_only_witness :
    syncSignal [⟨0, HKind.sync, some Exc.stopPropagation⟩] = some Exc.stopPropagation ∧
    runChain [[[⟨0, HKind.sync, some Exc.stopPropagation⟩], [⟨1, HKind.sync, none⟩]]]
      = ⟨[⟨0, HKind.sync, some Exc.stopPropagation⟩], [], none⟩ := by
  refine ⟨by decide, ?_⟩
  have h := (control_signals_sync_only [] [] [] [[⟨1, HKind.sync, none⟩]]
    [⟨0, HKind.sync, some Exc.stopPropagation⟩] (by simp) (by simp)).1 (by decide)
  simpa using h

/-- Witness for C2 (amended): an async raiser next to a synchronous
handler; both run, the raiser is reported, nothing escapes. -/
theorem exception_handling_split_by_kind_witness :
    syncSignal [⟨0, HKind.async, some (Exc.other 9)⟩, ⟨1, HKind.sync, none⟩] = none ∧
    runChain [[[⟨0, HKind.async, some (Exc.other 9)⟩, ⟨1, HKind.sync, none⟩]]]
      = ⟨[⟨0, HKind.async, some (Exc.other 9)⟩, ⟨1, HKind.sync, none⟩],
         [⟨0, HKind.async, some (Exc.other 9)⟩], none⟩ := by
  refine ⟨by decide, ?_⟩
  have h := exception_handling_split_by_kind.1
    [[[⟨0, HKind.async, some (Exc.other 9)⟩, ⟨1, HKind.sync, none⟩]]] (by decide)
  simpa [chainHandlers] using h


theorem decodePair_cons_ne (letter repl c : Char) (l : List Char) (h : c ≠ '\\') :
    decodePair letter repl (c :: l) = c :: decodePair letter repl l := by
  cases l <;> simp [decodePair, h]

theorem decodePair_bs_match (letter repl : Char) (l : List Char) :
    decodePair letter repl ('\\' :: letter :: l) = repl :: decodePair letter repl l := by
  simp [decodePair]

theorem decodePair_bs_ne (letter repl c : Char) (l : List Char) (h : c ≠ letter) :
    decodePair letter repl ('\\' :: c :: l) = '\\' :: decodePair letter repl (c :: l) := by
  simp [decodePair, h]

theorem decodePair_bs_nil (letter repl : Char) :
    decodePair letter repl ['\\'] = ['\\'] := by
  simp [decodePair]

theorem decodePair_bs_head (letter repl : Char) (l : List Char)
    (h : ∀ x, l.head? = some x → x ≠ letter) :
    decodePair letter repl ('\\' :: l) = '\\' :: decodePair letter repl l := by
  cases l with
  | nil => simp [decodePair]
  | cons c t => exact decodePair_bs_ne letter repl c t (h c rfl)

theorem unescapePass_cons_ne (c : Char) (l : List Char) (h : c ≠ '\\') :
    unescapePass (c :: l) = c :: unescapePass l := by
  cases l <;> simp [unescapePass, h]

theorem unescapePass_bs_esc (c : Char) (l : List Char) (h : isEscaped c = true) :
    unescapePass ('\\' :: c :: l) = c :: unescapePass l := by
  simp [unescapePass, h]

theorem escaped_ne (c : Char) (h : isEscaped c = true) :
    c ≠ '\n' ∧ c ≠ '\r' ∧ c ≠ 'n' ∧ c ≠ 'r' := by
  simp only [isEscaped, Bool.or_eq_true, decide_eq_true_eq] at h
  rcases h with ((((h | h) | h) | h) | h) <;> subst h <;>
    exact ⟨by decide, by decide, by decide, by decide⟩

theorem not_escaped_ne_bs (c : Char) (h : ¬isEscaped c = true) : c ≠ '\\' := by
  intro he
  subst he
  exact h (by decide)

theorem replaceChar_append (t : Char) (r a b : List Char) :
    replaceChar t r (a ++ b) = replaceChar t r a ++ replaceChar t r b := by
  induction a with
  | nil => rfl
  | cons c rest ih =>
    by_cases h : c = t <;> simp [replaceChar, h, ih]

theorem goodNR_bs (d : Char) (t : List Char) (h : goodNR ('\\' :: d :: t) = true) :
    (d ≠ 'n' ∧ d ≠ 'r') ∧ goodNR (d :: t) = true := by
  simp only [goodNR, Bool.and_eq_true, Bool.not_eq_true', Bool.or_eq_false_iff,
    decide_eq_false_iff_not] at h
  exact ⟨h.1, h.2⟩

theorem goodNR_tail (c : Char) (s : List Char) (h : goodNR (c :: s) = true) :
    goodNR s = true := by
  cases s with
  | nil => rfl
  | cons d t =>
    by_cases hc : c = '\\'
    · subst hc
      exact (goodNR_bs d t h).2
    · cases hd : decide (d = '\\') <;>
        simpa [goodNR, hc] using h

theorem escapePass_cons (c : Char) (s : List Char) :
    escapePass (c :: s) = (if isEscaped c then ['\\', c] else [c]) ++ escapePass s := by
  by_cases h : isEscaped c <;> simp [escapePass, h]

theorem serialize_cons (c : Char) (s : List Char) :
    serialize (c :: s) = enc c ++ serialize s := by
  unfold serialize
  rw [escapePass_cons, replaceChar_append, replaceChar_append]
  congr 1
  by_cases h1 : isEscaped c
  · have h2 := escaped_ne c h1
    simp [h1, enc, replaceChar, h2.1, h2.2.1]
  · by_cases h2 : c = '\n'
    · subst h2; simp [enc, replaceChar, h1]
    · by_cases h3 : c = '\r'
      · subst h3; simp [enc, replaceChar, h1, h2]
      · simp [enc, replaceChar, h1, h2, h3]

theorem enc_head_not (d : Char) (l : List Char) (hd : d ≠ 'n') :
    ∀ x, ((enc d ++ l).head? = some x) → x ≠ 'n' := by
  intro x hx
  unfold enc at hx
  by_cases h1 : isEscaped d
  · simp [h1] at hx; subst hx; decide
  · by_cases h2 : d = '\n'
    · subst h2; simp [h1] at hx; subst hx; decide
    · by_cases h3 : d = '\r'
      · subst h3; simp [h1, h2] at hx; subst hx; decide
      · simp [h1, h2, h3] at hx; subst hx; exact hd

theorem encA_head_not (d : Char) (l : List Char) (hd : d ≠ 'r') :
    ∀ x, ((encA d ++ l).head? = some x) → x ≠ 'r' := by
  intro x hx
  unfold encA at hx
  by_cases h1 : isEscaped d
  · simp [h1] at hx; subst hx; decide
  · by_cases h2 : d = '\n'
    · subst h2; simp [h1] at hx; subst hx; decide
    · by_cases h3 : d = '\r'
      · subst h3; simp [h1, h2] at hx; subst hx; decide
      · simp [h1, h2, h3] at hx; subst hx; exact hd

theorem decodeN (s : List Char) (hg : goodNR s = true) :
    decodePair 'n' '\n' ((s.map enc).flatten) = (s.map encA).flatten := by
  induction s with
  | nil => rfl
  | cons c s ih =>
    simp only [List.map_cons, List.flatten_cons]
    by_cases h1 : isEscaped c
    · by_cases hbs : c = '\\'
      · subst hbs
        rw [show enc '\\' = ['\\', '\\'] from by decide,
          show encA '\\' = ['\\', '\\'] from by decide]
        cases s with
        | nil => decide
        | cons d t =>
          have hg2 := goodNR_bs d t hg
          simp only [List.cons_append, List.nil_append]
          rw [decodePair_bs_ne _ _ _ _ (by decide : ('\\' : Char) ≠ 'n')]
          have hhead : ∀ x, (((d :: t).map enc).flatten.head? = some x) → x ≠ 'n' := by
            simp only [List.map_cons, List.flatten_cons]
            exact enc_head_not d _ hg2.1.1
          rw [decodePair_bs_head _ _ _ hhead]
          rw [ih hg2.2]
      · have hne := escaped_ne c h1
        rw [show enc c = ['\\', c] from by simp [enc, h1],
          show encA c = ['\\', c] from by simp [encA, h1]]
        simp only [List.cons_append, List.nil_append]
        rw [decodePair_bs_ne _ _ _ _ hne.2.2.1]
        rw [decodePair_cons_ne _ _ _ _ hbs]
        rw [ih (goodNR_tail c s hg)]
    · by_cases h2 : c = '\n'
      · subst h2
        rw [show enc '\n' = ['\\', 'n'] from by decide,
          show encA '\n' = ['\n'] from by decide]
        simp only [List.cons_append, List.nil_append]
        rw [decodePair_bs_match]
        rw [ih (goodNR_tail _ _ hg)]
      · by_cases h3 : c = '\r'
        · subst h3
          rw [show enc '\r' = ['\\', 'r'] from by decide,
            show encA '\r' = ['\\', 'r'] from by decide]
          simp only [List.cons_append, List.nil_append]
          rw [decodePair_bs_ne _ _ _ _ (by decide : ('r' : Char) ≠ 'n')]
          rw [decodePair_cons_ne _ _ _ _ (by decide : ('r' : Char) ≠ '\\')]
          rw [ih (goodNR_tail _ _ hg)]
        · rw [show enc c = [c] from by simp [enc, h1, h2, h3],
            show encA c = [c] from by simp [encA, h1, h2, h3]]
          simp only [List.singleton_append]
          rw [decodePair_cons_ne _ _ _ _ (not_escaped_ne_bs c h1)]
          rw [ih (goodNR_tail _ _ hg)]

theorem decodeR (s : List Char) (hg : goodNR s = true) :
    decodePair 'r' '\r' ((s.map encA).flatten) = (s.map encB).flatten := by
  induction s with
  | nil => rfl
  | cons c s ih =>
    simp only [List.map_cons, List.flatten_cons]
    by_cases h1 : isEscaped c
    · by_cases hbs : c = '\\'
      · subst hbs
        rw [show encA '\\' = ['\\', '\\'] from by decide,
          show encB '\\' = ['\\', '\\'] from by decide]
        cases s with
        | nil => decide
        | cons d t =>
          have hg2 := goodNR_bs d t hg
          simp only [List.cons_append, List.nil_append]
          rw [decodePair_bs_ne _ _ _ _ (by decide : ('\\' : Char) ≠ 'r')]
          have hhead : ∀ x, (((d :: t).map encA).flatten.head? = some x) → x ≠ 'r' := by
            simp only [List.map_cons, List.flatten_cons]
            exact encA_head_not d _ hg2.1.2
          rw [decodePair_bs_head _ _ _ hhead]
          rw [ih hg2.2]
      · have hne := escaped_ne c h1
        rw [show encA c = ['\\', c] from by simp [encA, h1],
          show encB c = ['\\', c] from by simp [encB, h1]]
        simp only [List.cons_append, List.nil_append]
        rw [decodePair_bs_ne _ _ _ _ hne.2.2.2]
        rw [decodePair_cons_ne _ _ _ _ hbs]
        rw [ih (goodNR_tail c s hg)]
    · by_cases h2 : c = '\n'
      · subst h2
        rw [show encA '\n' = ['\n'] from by decide,
          show encB '\n' = ['\n'] from by decide]
        simp only [List.singleton_append]
        rw [decodePair_cons_ne _ _ _ _ (by decide : ('\n' : Char) ≠ '\\')]
        rw [ih (goodNR_tail _ _ hg)]
      · by_cases h3 : c = '\r'
        · subst h3
          rw [show encA '\r' = ['\\', 'r'] from by decide,
            show encB '\r' = ['\r'] from by decide]
          simp only [List.cons_append, List.nil_append, List.singleton_append]
          rw [decodePair_bs_match]
          rw [ih (goodNR_tail _ _ hg)]
        · rw [show encA c = [c] from by simp [encA, h1, h2, h3],
            show encB c = [c] from by simp [encB, h1, h2, h3]]
          simp only [List.singleton_append]
          rw [decodePair_cons_ne _ _ _ _ (not_escaped_ne_bs c h1)]
          rw [ih (goodNR_tail _ _ hg)]

theorem unescape_encB (s : List Char) :
    unescapePass ((s.map encB).flatten) = s := by
  induction s with
  | nil => rfl
  | cons c s ih =>
    simp only [List.map_cons, List.flatten_cons]
    by_cases h1 : isEscaped c
    · rw [show encB c = ['\\', c] from by simp [encB, h1]]
      simp only [List.cons_append, List.nil_append]
      rw [unescapePass_bs_esc c _ h1, ih]
    · rw [show encB c = [c] from by simp [encB, h1]]
      simp only [List.singleton_append]
      rw [unescapePass_cons_ne c _ (not_escaped_ne_bs c h1), ih]

theorem serialize_flat (s : List Char) :
    serialize s = (s.map enc).flatten := by
  induction s with
  | nil => rfl
  | cons c s ih => rw [serialize_cons, ih]; simp

theorem roundtrip_of_goodNR (s : List Char) (hg : goodNR s = true) :
    deserialize (serialize s) = s := by
  rw [deserialize, serialize_flat, decodeN s hg, decodeR s hg, unescape_encB]

/-- C4 (counterexample): the round trip fails on the two-character
string backslash-`n`: `serialize` turns it into backslash,
backslash, `n`, and `deserialize`'s first `replace` then decodes the
trailing backslash-`n` pair into a newline, yielding
backslash-newline instead of the original. -/
theorem roundtrip_fails_on_backslash_n :
    deserializeStr (serializeStr "\\n") = "\\\n" ∧
    deserializeStr (serializeStr "\\n") ≠ "\\n" := by
  constructor <;> decide

/-- C4 (amended): for every string in which no backslash is directly
followed by the letter `n` or `r`, `deserialize(serialize(s)) == s`;
and `serialize` rewrites a character iff it is one of the five class
characters or the newline or the carriage return. -/
theorem roundtrip_holds_without_backslash_nr :
    (∀ s : String, goodNR s.data = true → deserializeStr (serializeStr s) = s) ∧
    (∀ c : Char, serialize [c] ≠ [c] ↔
      (isEscaped c = true ∨ c = '\n' ∨ c = '\r')) := by
  have hs : ∀ c : Char, serialize [c] = enc c := by
    intro c
    rw [serialize_cons]
    show enc c ++ serialize [] = enc c
    rw [show serialize [] = [] from rfl, List.append_nil]
  constructor
  · intro s hg
    unfold deserializeStr serializeStr
    rw [show (⟨serialize s.data⟩ : String).data = serialize s.data from rfl,
      roundtrip_of_goodNR s.data hg]
  · intro c
    constructor
    · intro hne
      by_contra hcl
      push_neg at hcl
      apply hne
      have h1 : isEscaped c = false := by
        simpa using hcl.1
      rw [hs]
      simp [enc, h1, hcl.2.1, hcl.2.2]
    · intro hcl
      have hlen : (serialize [c]).length = 2 := by
        rw [hs]
        rcases hcl with h | h | h
        · simp [enc, h]
        · subst h; decide
        · subst h; decide
      intro he
      rw [he] at hlen
      simp at hlen

/-- Witness for C4 (amended): a concrete string exercising all five
escaped characters and a newline. -/
theorem roundtrip_holds_without_backslash_nr_witness :
    goodNR ("a[b]c:d,e\\f\ng".data) = true ∧
    deserializeStr (serializeStr "a[b]c:d,e\\f\ng") = "a[b]c:d,e\\f\ng" :=
  ⟨by decide, roundtrip_holds_without_backslash_nr.1 _ (by decide)⟩

end Mirai
